import Mathlib

/-!
# TextToShader: extraction of GLSL code, shader build and frame loop

A shallow embedding of `src/src/TextToShader.jsx`.

* JavaScript strings are modelled as Lean strings, worked on as lists of
  characters. The regular expression of `extractGLSLCode` has no `u` flag and
  tests single code units against the backtick, the letters `g l s` and the
  white space class only, so characters and code units behave alike.
* A React state variable holds the value its setter was last called with. The
  render React committed last is kept apart, as the `view`: the handlers of
  the page and the `disabled` attribute of the button read the view, and only
  a commit brings the view in step with the state.
* `async` code is the part run up to the first `await` and the part run when
  the promise settles.
* The browser is a `Host` that answers the calls the source makes, and the
  calls are recorded in a trace, oldest first.
* The regular expression is run by a backtracking matcher that follows the
  ECMAScript ordered-choice semantics: a greedy star first tries one more
  repetition, a lazy star first tries the rest of the pattern.
-/

namespace TextToShader

/-! ## Strings -/

/-- White space in the sense of ECMAScript: the code points matched by the
regular expression class `\s` and stripped by `String.prototype.trim`
(WhiteSpace and LineTerminator of the language specification). -/
def isWhiteSpace (c : Char) : Bool :=
  c.toNat = 0x09 || c.toNat = 0x0A || c.toNat = 0x0B || c.toNat = 0x0C || c.toNat = 0x0D ||
  c.toNat = 0x20 || c.toNat = 0xA0 || c.toNat = 0x1680 ||
  (0x2000 ≤ c.toNat && c.toNat ≤ 0x200A) ||
  c.toNat = 0x2028 || c.toNat = 0x2029 || c.toNat = 0x202F || c.toNat = 0x205F ||
  c.toNat = 0x3000 || c.toNat = 0xFEFF

/-- The method `String.prototype.trimStart` on a list of characters. -/
def trimStart (s : List Char) : List Char := s.dropWhile isWhiteSpace

/-- The method `String.prototype.trimEnd` on a list of characters. -/
def trimEnd (s : List Char) : List Char := (s.reverse.dropWhile isWhiteSpace).reverse

/-- The method `String.prototype.trim` on a list of characters. -/
def trim (s : List Char) : List Char := trimEnd (trimStart s)

/-! ## The regular expression engine (the fragment the source uses) -/

/-- A pattern atom that consumes one character. -/
inductive Atom where
  /-- a literal character -/
  | chr (c : Char)
  /-- the class `\s` -/
  | space
  /-- the class `[\s\S]`: any character at all -/
  | anyChar
  deriving DecidableEq, Repr

/-- Whether an atom accepts a character. -/
def Atom.test : Atom → Char → Bool
  | .chr c, x => x == c
  | .space, x => isWhiteSpace x
  | .anyChar, _ => true

/-- A pattern is a sequence of items. -/
inductive Item where
  /-- one atom -/
  | one (a : Atom)
  /-- `a*`, greedy -/
  | starGreedy (a : Atom)
  /-- `a*?`, lazy -/
  | starLazy (a : Atom)
  /-- the opening parenthesis of capture group 1 -/
  | groupOpen
  /-- the closing parenthesis of capture group 1 -/
  | groupClose
  deriving DecidableEq, Repr

/-- While the capture group is open, a consumed character is part of it. -/
def consIf (inGroup : Bool) (c : Char) (cap : List Char) : List Char :=
  if inGroup then c :: cap else cap

/-- The greedy star `a*` followed by the continuation `k` (the rest of the
pattern): one more repetition is tried first, and only when the rest of the
match fails from there is the star left. -/
def greedyLoop (a : Atom) (g : Bool) (k : List Char → Option (List Char)) :
    List Char → Option (List Char)
  | [] => k []
  | c :: cs =>
    if a.test c then
      match greedyLoop a g k cs with
      | some r => some (consIf g c r)
      | none => k (c :: cs)
    else k (c :: cs)

/-- The lazy star `a*?` followed by the continuation `k`: the rest of the
pattern is tried first, and only when it fails is one more repetition taken. -/
def lazyLoop (a : Atom) (g : Bool) (k : List Char → Option (List Char)) :
    List Char → Option (List Char)
  | [] => k []
  | c :: cs =>
    match k (c :: cs) with
    | some r => some r
    | none => if a.test c then (lazyLoop a g k cs).map (consIf g c) else none

/-- Backtracking match of a pattern against a prefix of the input. The result
is the text of capture group 1 of the first successful alternative, in the
order in which ECMAScript explores them; `g` tells whether the group is open. -/
def run : List Item → Bool → List Char → Option (List Char)
  | [], _, _ => some []
  | .one a :: is, g, inp =>
    match inp with
    | [] => none
    | c :: cs => if a.test c then (run is g cs).map (consIf g c) else none
  | .starGreedy a :: is, g, inp => greedyLoop a g (run is g) inp
  | .starLazy a :: is, g, inp => lazyLoop a g (run is g) inp
  | .groupOpen :: is, _, inp => run is true inp
  | .groupClose :: is, _, inp => run is false inp

/-- A run of literal characters. -/
def lits (s : List Char) : List Item := s.map fun c => Item.one (Atom.chr c)

/-- The closing fence, three backticks. -/
def fence : List Char := "```".toList

/-- The opening fence with its tag. -/
def openTag : List Char := "```glsl".toList

/-- The pattern of line 12: the opening fence, `\s*`, the lazy group
`([\s\S]*?)`, `\s*`, the closing fence. -/
def glslPattern : List Item :=
  lits openTag ++
    [.starGreedy .space, .groupOpen, .starLazy .anyChar, .groupClose, .starGreedy .space] ++
    lits fence

/-- The method `String.prototype.match` for a pattern without the global flag:
the start positions are tried from left to right and the first match wins. The
result is capture group 1 (`match[1]`), `none` when `match` returns `null`. -/
def regexMatch (p : List Item) : List Char → Option (List Char)
  | [] => run p false []
  | c :: cs =>
    match run p false (c :: cs) with
    | some r => some r
    | none => regexMatch p cs

/-- The function `extractGLSLCode` (lines 11-14) on lists of characters. -/
def extractChars (text : List Char) : List Char :=
  match regexMatch glslPattern text with
  | some m => trim m
  | none => trim text

/-- The function `extractGLSLCode` (lines 11-14). -/
def extractGLSLCode (text : String) : String := String.mk (extractChars text.data)

/-! ## Auxiliary functions used to describe the match -/

/-- The tail `\s*` and closing fence of the pattern match at the start of the
input. -/
def closes (inp : List Char) : Bool := fence.isPrefixOf (inp.dropWhile isWhiteSpace)

/-- The shortest prefix of the input after which the tail of the pattern
matches, when there is one. -/
def scan : List Char → Option (List Char)
  | [] => none
  | c :: cs => if closes (c :: cs) then some [] else (scan cs).map (c :: ·)

/-- The input holds an opening fence tagged glsl and, later, a closing fence. -/
def HasBlock (s : List Char) : Prop :=
  ∃ pre mid post, s = pre ++ openTag ++ mid ++ fence ++ post

/-- A text with no white space at either end. -/
def Tight (s : List Char) : Prop :=
  (∀ c, s.head? = some c → isWhiteSpace c = false) ∧
    (∀ c, s.getLast? = some c → isWhiteSpace c = false)

/-! ## The host: graphics driver, scheduler, console -/

/-- The two shader stages, `gl.VERTEX_SHADER` and `gl.FRAGMENT_SHADER`. -/
inductive Stage where
  | vertex
  | fragment
  deriving DecidableEq, Repr

/-- The draw modes; the source uses `gl.TRIANGLE_STRIP` only. -/
inductive DrawMode where
  | triangles
  | triangleStrip
  | triangleFan
  deriving DecidableEq, Repr

/-- What the source leaves to the browser: the answers of the graphics driver
and the message of the engine for a `TypeError`. -/
structure Host where
  /-- `COMPILE_STATUS` of a shader of this stage and source -/
  compiles : Stage → String → Bool
  /-- `getShaderInfoLog` of a shader of this stage and source -/
  infoLog : Stage → String → String
  /-- `LINK_STATUS` of the program built from a vertex and a fragment source -/
  links : String → String → Bool
  /-- `getAttribLocation` for a fragment source and an attribute name -/
  attribLocation : String → String → Int
  /-- `getUniformLocation` for a fragment source and a uniform name -/
  uniformLocation : String → String → Option Nat
  /-- the message of the `TypeError` raised by `undefined.match` -/
  typeErrorMessage : String

/-- One call to the graphics context, the scheduler, the console or the
network, with the value it returned where the source reads it. -/
inductive Call where
  | createShader (id : Nat) (stage : Stage)
  | shaderSource (id : Nat) (src : String)
  | compileShader (id : Nat)
  | getShaderParameter (id : Nat) (compileStatus : Bool)
  | getShaderInfoLog (id : Nat)
  | deleteShader (id : Nat)
  | createProgram (id : Nat)
  | attachShader (program shader : Nat)
  | linkProgram (program : Nat)
  | getProgramParameter (program : Nat) (linkStatus : Bool)
  | createBuffer (id : Nat)
  | bindBuffer (id : Nat)
  | bufferData (data : List Int)
  | getAttribLocation (program : Nat) (name : String)
  | getUniformLocation (program : Nat) (name : String)
  | viewport (x y width height : Int)
  | clearColor (r g b a : Int)
  | clear
  | useProgram (program : Nat)
  | uniform1f (loc : Option Nat) (v : ℚ)
  | uniform2f (loc : Option Nat) (x y : Int)
  | enableVertexAttribArray (loc : Int)
  | vertexAttribPointer (loc : Int) (size stride offset : Nat)
  | drawArrays (mode : DrawMode) (first count : Nat)
  | requestAnimationFrame (handle : Nat)
  | cancelAnimationFrame (handle : Nat)
  | consoleError (label text : String)
  | fetch (prompt : String)
  deriving DecidableEq, Repr

/-- The canvas element: its pixel size and whether `getContext("webgl")`
returns a context. -/
structure Canvas where
  width : Nat
  height : Nat
  webgl : Bool
  deriving DecidableEq, Repr

/-- A live shader object of the context. -/
structure ShaderObj where
  id : Nat
  stage : Stage
  compiled : Bool
  deriving DecidableEq, Repr

/-- The variables the closure `render` of one `renderShader` call holds. -/
structure Session where
  canvas : Canvas
  program : Nat
  positionBuffer : Nat
  positionLocation : Int
  timeLocation : Option Nat
  resolutionLocation : Option Nat
  startTime : Int
  deriving DecidableEq, Repr

/-- What the render React committed last shows: the value of `prompt` the
handler `submit` of that render closes over, and the value of `compiling` the
attribute `disabled` of the button was given (line 161). -/
structure View where
  prompt : String
  compiling : Bool
  deriving DecidableEq, Repr

/-- The state of the component and of the part of the browser it touches. The
four React state variables hold what their setters were last called with. -/
structure World where
  /-- React state `prompt` -/
  prompt : String
  /-- React state `shader` -/
  shader : String
  /-- React state `error` -/
  error : String
  /-- React state `compiling` -/
  compiling : Bool
  /-- the render committed last -/
  view : View
  /-- the value of `canvasRef.current` -/
  canvas : Option Canvas
  /-- the value of `animationRef.current`, `none` for `null` -/
  animationRef : Option Nat
  /-- the value `Date.now()` returns -/
  now : Int
  /-- the handle the next `requestAnimationFrame` returns -/
  nextHandle : Nat
  /-- the frame callbacks that are scheduled and not cancelled -/
  pending : List (Nat × Session)
  /-- the name of the next object the context creates -/
  nextId : Nat
  /-- the shader objects that are allocated -/
  shaders : List ShaderObj
  /-- the requests sent whose promise has not settled -/
  inFlight : Nat
  /-- ghost: how many times `renderShader` was entered -/
  renderCalls : Nat
  /-- the calls made so far, oldest first -/
  log : List Call
  deriving Repr

/-- Record calls. -/
def World.emit (w : World) (cs : List Call) : World := { w with log := w.log ++ cs }

/-- The constant `vertexShaderSource` (lines 59-64). -/
def vertexShaderSource : String :=
  "\n      attribute vec4 a_position;\n      void main() \x7b\n        gl_Position = a_position;\n      \x7d\n    "

/-- The data of the `Float32Array` of line 101. -/
def quadData : List Int := [-1, -1, 1, -1, -1, 1, 1, 1]

/-- The function `createShader` (lines 66-77): the shader object, `none` for
`null`, and the state after. -/
def createShader (host : Host) (type : Stage) (source : String) (w : World) :
    Option Nat × World :=
  let shader := w.nextId
  let status := host.compiles type source
  let w1 : World :=
    { w with
      nextId := w.nextId + 1
      shaders := w.shaders ++ [{ id := shader, stage := type, compiled := status }] }
  let w2 := w1.emit [.createShader shader type, .shaderSource shader source,
    .compileShader shader, .getShaderParameter shader status]
  if !status then
    let w3 := w2.emit [.getShaderInfoLog shader,
      .consoleError "Shader compile error:" (host.infoLog type source), .deleteShader shader]
    (none, { w3 with shaders := w3.shaders.filter fun o => o.id != shader })
  else
    (some shader, w2)

/-- The closure `render` (lines 111-130): one frame. -/
def render (s : Session) (w : World) : World :=
  let currentTime : ℚ := ((w.now - s.startTime : Int) : ℚ) / 1000
  let w1 := w.emit [
    .viewport 0 0 s.canvas.width s.canvas.height,
    .clearColor 0 0 0 1,
    .clear,
    .useProgram s.program,
    .uniform1f s.timeLocation currentTime,
    .uniform2f s.resolutionLocation s.canvas.width s.canvas.height,
    .bindBuffer s.positionBuffer,
    .enableVertexAttribArray s.positionLocation,
    .vertexAttribPointer s.positionLocation 2 0 0,
    .drawArrays .triangleStrip 0 4]
  let handle := w1.nextHandle
  { w1.emit [.requestAnimationFrame handle] with
    nextHandle := handle + 1
    pending := w1.pending ++ [(handle, s)]
    animationRef := some handle }

/-- The function `renderShader` (lines 49-133). -/
def renderShader (host : Host) (fragmentShaderSource : String) (w0 : World) : World :=
  let w : World := { w0 with renderCalls := w0.renderCalls + 1 }
  match w.canvas with
  | none => w
  | some canvas =>
    if !canvas.webgl then { w with error := "WebGL not supported" }
    else
      let (vertexShader, w1) := createShader host .vertex vertexShaderSource w
      let (fragmentShader, w2) := createShader host .fragment fragmentShaderSource w1
      match vertexShader, fragmentShader with
      | some vs, some fs =>
        let program := w2.nextId
        let linked := host.links vertexShaderSource fragmentShaderSource
        let w3 := ({ w2 with nextId := w2.nextId + 1 }).emit [.createProgram program,
          .attachShader program vs, .attachShader program fs, .linkProgram program,
          .getProgramParameter program linked]
        if !linked then { w3 with error := "Failed to link program" }
        else
          let positionBuffer := w3.nextId
          let w4 := ({ w3 with nextId := w3.nextId + 1 }).emit [.createBuffer positionBuffer,
            .bindBuffer positionBuffer, .bufferData quadData,
            .getAttribLocation program "a_position",
            .getUniformLocation program "u_time",
            .getUniformLocation program "u_resolution"]
          render
            { canvas := canvas
              program := program
              positionBuffer := positionBuffer
              positionLocation := host.attribLocation fragmentShaderSource "a_position"
              timeLocation := host.uniformLocation fragmentShaderSource "u_time"
              resolutionLocation := host.uniformLocation fragmentShaderSource "u_resolution"
              startTime := w4.now } w4
      | _, _ => { w2 with error := "Failed to compile shaders" }

/-- The host call `cancelAnimationFrame`. -/
def cancelAnimationFrame (handle : Nat) (w : World) : World :=
  { w.emit [.cancelAnimationFrame handle] with
    pending := w.pending.filter fun p => p.1 != handle }

/-- The cleanup of the effect (lines 136-140), run when the component
unmounts. A handle is truthy when it is not zero. -/
def cleanup (w : World) : World :=
  match w.animationRef with
  | some handle => if handle != 0 then cancelAnimationFrame handle w else w
  | none => w

/-- The browser runs the scheduled callback `handle` at clock time `t`; nothing
happens for a handle that is not scheduled. -/
def frame (handle : Nat) (t : Int) (w : World) : World :=
  match w.pending.find? fun p => p.1 == handle with
  | none => w
  | some (_, s) =>
    render s { w with now := t, pending := w.pending.filter fun p => p.1 != handle }

/-- What the awaited request gives: the parsed body, an object whose `error`
and `shader` fields are strings when present, or a rejection with an error
message. -/
inductive Reply where
  | json (error shader : Option String)
  | throws (message : String)
  deriving DecidableEq, Repr

/-- The part of `submit` run at once (lines 17-28), up to the first `await`,
for the value of `prompt` the handler closes over. -/
def submit (prompt : String) (w : World) : World :=
  if (trim prompt.data).isEmpty then w
  else
    ({ w with compiling := true, error := "", shader := "", inFlight := w.inFlight + 1 }).emit
      [.fetch prompt]

/-- The part of `submit` run at once (lines 17-28), up to the first `await`,
when the handler is that of a render in step with the state: it closes over
the current value of `prompt`. -/
def submitStart (w : World) : World := submit w.prompt w

/-- The `catch` block (lines 41-43). -/
def submitCatch (message : String) (w : World) : World :=
  { w with error := "Backend error: " ++ message, shader := "// Backend error" }

/-- The part of `submit` run when the request settles (lines 30-46). -/
def submitSettle (host : Host) (r : Reply) (w0 : World) : World :=
  let w : World := { w0 with inFlight := w0.inFlight - 1 }
  let w1 : World :=
    match r with
    | .throws message => submitCatch message w
    | .json error shader =>
      match error with
      | some msg =>
        if msg != "" then { w with error := msg, shader := "// Error: " ++ msg }
        else
          match shader with
          | some code =>
            let cleanCode := extractGLSLCode code
            renderShader host cleanCode { w with shader := cleanCode }
          | none => submitCatch host.typeErrorMessage w
      | none =>
        match shader with
        | some code =>
          let cleanCode := extractGLSLCode code
          renderShader host cleanCode { w with shader := cleanCode }
        | none => submitCatch host.typeErrorMessage w
  { w1 with compiling := false }

/-- React renders and commits: the view takes the values of the state. -/
def commit (w : World) : World :=
  { w with view := { prompt := w.prompt, compiling := w.compiling } }

/-- A click on the button. The button is disabled when the render committed
last had `compiling` set (line 161); otherwise the handler `submit` of that
render runs, with the `prompt` of that render. -/
def click (w : World) : World := if w.view.compiling then w else submit w.view.prompt w

/-- The component unmounts: the cleanup of the effect runs and React detaches
`canvasRef`. -/
def unmount (w : World) : World := { cleanup w with canvas := none }

/-- What can happen to the mounted component. -/
inductive Event where
  /-- the user edits the prompt: `onChange` calls `setPrompt` (line 153); the
  handler `submit` sees the new value once React has committed -/
  | setPrompt (p : String)
  /-- the user clicks the button as the last commit rendered it -/
  | click
  /-- React renders and commits the state -/
  | commit
  /-- the request in flight settles -/
  | settle (r : Reply)
  /-- the browser runs a scheduled frame callback -/
  | frame (handle : Nat) (t : Int)
  /-- the component unmounts -/
  | unmount
  deriving Repr

/-- One event. A request settles only when one is in flight. -/
def step (host : Host) (w : World) : Event → World
  | .setPrompt p => { w with prompt := p }
  | .click => click w
  | .commit => commit w
  | .settle r => if w.inFlight = 0 then w else submitSettle host r w
  | .frame handle t => frame handle t w
  | .unmount => unmount w

/-- A sequence of events, oldest first. -/
def runEvents (host : Host) (w : World) (evs : List Event) : World := evs.foldl (step host) w

/-- The component after mounting on a canvas: the initial React state and
refs (lines 4-9), nothing scheduled, nothing allocated. -/
def initial (canvas : Option Canvas) : World :=
  { prompt := "", shader := "", error := "", compiling := false
    view := { prompt := "", compiling := false }
    canvas := canvas, animationRef := none, now := 0, nextHandle := 1
    pending := [], nextId := 1, shaders := [], inFlight := 0, renderCalls := 0, log := [] }

/-- The canvas of lines 176-181. -/
def canvas400 : Canvas := { width := 400, height := 300, webgl := true }

/-- The calls that draw. -/
def Call.isDraw : Call → Bool
  | .drawArrays _ _ _ => true
  | _ => false

/-- The calls that write a uniform. -/
def Call.isUniformWrite : Call → Bool
  | .uniform1f _ _ => true
  | .uniform2f _ _ _ => true
  | _ => false

/-- The number of draw calls in a trace. -/
def draws (log : List Call) : Nat := (log.filter Call.isDraw).length

/-- The console entries of a trace. -/
def consoleEntries (log : List Call) : List (String × String) :=
  log.filterMap fun
    | .consoleError label text => some (label, text)
    | _ => none

/-- The number of requests sent in a trace. -/
def fetches (log : List Call) : Nat :=
  (log.filter fun
    | .fetch _ => true
    | _ => false).length

/-- The clicks among the events. -/
def Event.isClick : Event → Bool
  | .click => true
  | _ => false

/-- The events other than the settling of a request. -/
def Event.isSettle : Event → Bool
  | .settle _ => true
  | _ => false

/-- The events a build does not start from: frame callbacks and unmount. -/
def Event.isPassive : Event → Bool
  | .frame _ _ => true
  | .unmount => true
  | _ => false

/-- The buffer uploads of a trace. -/
def uploads (log : List Call) : List (List Int) :=
  log.filterMap fun
    | .bufferData data => some data
    | _ => none

/-- The frame handles a trace cancels. -/
def cancelled (log : List Call) : List Nat :=
  log.filterMap fun
    | .cancelAnimationFrame handle => some handle
    | _ => none

/-- The programs a trace binds. -/
def boundPrograms (log : List Call) : List Nat :=
  log.filterMap fun
    | .useProgram program => some program
    | _ => none

/-- The number of frame-driver loops that are active: each loop has one
callback scheduled between two of its frames. -/
def activeLoops (w : World) : Nat := w.pending.length

/-- The states of the frame driver. -/
inductive LoopState where
  | stopped
  | running
  deriving DecidableEq, Repr

/-- The frame driver runs when a callback is scheduled. -/
def loopState (w : World) : LoopState :=
  if w.pending.isEmpty then .stopped else .running

/-- The busy flag is set exactly while one request is in flight. -/
def Busy (w : World) : Prop :=
  (w.inFlight = 0 ∧ w.compiling = false) ∨ (w.inFlight = 1 ∧ w.compiling = true)

/-- At most one request is in flight, and the button is disabled while the
busy flag is set. -/
def Guarded (w : World) : Prop :=
  Busy w ∧ (w.compiling = true → w.view.compiling = true)

/-- The events with a commit put after each click: React commits the render a
click asked for before the next event is handled. -/
def pace : List Event → List Event
  | [] => []
  | .click :: rest => .click :: .commit :: pace rest
  | e :: rest => e :: pace rest

/-- Every read of a failed compile status in the trace is followed, later in
the trace, by the deletion of that shader. -/
def failedReleased : List Call → Bool
  | [] => true
  | .getShaderParameter id false :: rest =>
    decide (Call.deleteShader id ∈ rest) && failedReleased rest
  | _ :: rest => failedReleased rest

/-! ## Geometry of the quad -/

/-- A vertex with two components. -/
abbrev Vertex := Int × Int

/-- The vertices an attribute of size 2, stride 0 and offset 0 reads from
buffer data (line 125): consecutive pairs. -/
def vertices : List Int → List Vertex
  | x :: y :: rest => (x, y) :: vertices rest
  | _ => []

/-- The triangles of a strip: each vertex after the second forms one with the
two before it. -/
def stripTriangles : List Vertex → List (Vertex × Vertex × Vertex)
  | a :: b :: c :: rest => (a, b, c) :: stripTriangles (b :: c :: rest)
  | _ => []

/-- The triangles `drawArrays(TRIANGLE_STRIP, first, count)` draws. -/
def drawnTriangles (vs : List Vertex) (first count : Nat) : List (Vertex × Vertex × Vertex) :=
  stripTriangles ((vs.drop first).take count)

/-- The point `(x, y)` lies in the closed triangle: it is a convex combination
of the three vertices. -/
def InTriangle {K : Type} [LinearOrderedField K] (t : Vertex × Vertex × Vertex) (x y : K) :
    Prop :=
  ∃ u v w : K, 0 ≤ u ∧ 0 ≤ v ∧ 0 ≤ w ∧ u + v + w = 1 ∧
    x = u * (t.1.1 : K) + v * (t.2.1.1 : K) + w * (t.2.2.1 : K) ∧
    y = u * (t.1.2 : K) + v * (t.2.1.2 : K) + w * (t.2.2.2 : K)

/-! ## Hosts and states used in examples -/

/-- A driver that rejects the source `bad` and accepts every other one. -/
def exampleHost : Host :=
  { compiles := fun _ src => src != "bad"
    infoLog := fun _ _ => "ERROR: 0:1: syntax error"
    links := fun _ _ => true
    attribLocation := fun _ _ => 0
    uniformLocation := fun _ name => if name == "u_time" then some 0 else some 1
    typeErrorMessage := "Cannot read properties of undefined (reading match)" }

/-- A driver that rejects every vertex shader and accepts every fragment
shader, with the same diagnostic text as `exampleHost`. -/
def vertexFailHost : Host :=
  { exampleHost with compiles := fun stage _ => stage != Stage.vertex }

/-- The error panel and the console, the two places a build reports to. -/
def report (w : World) : String × List (String × String) := (w.error, consoleEntries w.log)

/-- The world after one successful build on a fresh component. -/
def oneBuild : World := renderShader exampleHost "void main()" (initial (some canvas400))

/-- The world after two successful builds in a row. -/
def twoBuilds : World := renderShader exampleHost "void main() // second" oneBuild

/-- The component after the prompt of the scenario is typed and rendered. -/
def typed : World :=
  runEvents exampleHost (initial (some canvas400)) [.setPrompt "a red background", .commit]

/-! ## Lemmas on the matcher -/

theorem consIf_false (c : Char) (r : List Char) : consIf false c r = r := rfl

theorem consIf_true (c : Char) (r : List Char) : consIf true c r = c :: r := rfl

theorem map_consIf_false (c : Char) (o : Option (List Char)) :
    o.map (consIf false c) = o := by
  cases o <;> rfl

theorem run_lits (l : List Char) (rest : List Item) (inp : List Char) :
    run (lits l ++ rest) false inp =
      if l.isPrefixOf inp then run rest false (inp.drop l.length) else none := by
  induction l generalizing inp with
  | nil => simp [lits]
  | cons x l ih =>
    cases inp with
    | nil => simp [lits, run]
    | cons c cs =>
      have ih2 := ih cs
      simp only [lits] at ih2
      simp only [lits, List.map_cons, List.cons_append, run, Atom.test, List.isPrefixOf,
        List.length_cons, List.drop_succ_cons]
      by_cases h : c = x
      · subst h
        simp [ih2, map_consIf_false]
      · have h2 : (x == c) = false := by simpa using fun e => h e.symm
        simp [h, h2]

theorem run_fence (inp : List Char) :
    run (lits fence) false inp = if fence.isPrefixOf inp then some [] else none := by
  have h := run_lits fence [] inp
  simpa [run] using h

theorem not_ws_tick : isWhiteSpace (Char.ofNat 96) = false := by decide

theorem fence_eq : fence = [Char.ofNat 96, Char.ofNat 96, Char.ofNat 96] := by decide

theorem openTag_eq : openTag = fence ++ ['g', 'l', 's', 'l'] := by decide

theorem closes_nil : closes [] = false := by decide

theorem closes_cons_ws {c : Char} (h : isWhiteSpace c = true) (cs : List Char) :
    closes (c :: cs) = closes cs := by
  simp [closes, List.dropWhile_cons, h]

theorem closes_cons_not_ws {c : Char} (h : isWhiteSpace c = false) (cs : List Char) :
    closes (c :: cs) = fence.isPrefixOf (c :: cs) := by
  simp [closes, List.dropWhile_cons, h]

theorem fence_prefix_not_ws {c : Char} {cs : List Char} (h : fence.isPrefixOf (c :: cs) = true) :
    isWhiteSpace c = false := by
  rw [fence_eq] at h
  simp only [List.isPrefixOf, Bool.and_eq_true, beq_iff_eq] at h
  rw [← h.1]
  exact not_ws_tick

/-- The greedy `\s*` and the closing fence. -/
theorem greedy_close (inp : List Char) :
    greedyLoop .space false (run (lits fence) false) inp =
      if closes inp then some [] else none := by
  induction inp with
  | nil => simp [greedyLoop, run_fence, closes]
  | cons c cs ih =>
    simp only [greedyLoop, Atom.test, ih, run_fence]
    by_cases hc : isWhiteSpace c = true
    · rw [closes_cons_ws hc]
      by_cases hk : closes cs = true
      · simp [hc, hk, consIf_false]
      · have hn : fence.isPrefixOf (c :: cs) = false := by
          by_contra hp
          have := @fence_prefix_not_ws c cs (by simpa using hp)
          simp [this] at hc
        simp [hc, hk, hn]
    · have hc2 : isWhiteSpace c = false := by simpa using hc
      rw [closes_cons_not_ws hc2]
      simp [hc2]

/-- The lazy group followed by the tail of the pattern. -/
theorem lazy_scan (inp : List Char) :
    lazyLoop .anyChar true
        (run (.groupClose :: .starGreedy .space :: lits fence) true) inp = scan inp := by
  have hk : ∀ i, run (.groupClose :: .starGreedy .space :: lits fence) true i =
      if closes i then some [] else none := by
    intro i
    simp only [run]
    exact greedy_close i
  induction inp with
  | nil => simp [lazyLoop, hk, scan, closes_nil]
  | cons c cs ih =>
    simp only [lazyLoop, hk, ih, scan, Atom.test]
    by_cases h : closes (c :: cs) = true
    · simp [h]
    · simp only [h, Bool.false_eq_true, if_false, if_true]
      cases scan cs <;> simp [consIf_true]

theorem scan_cons_ws_none {c : Char} (h : isWhiteSpace c = true) {cs : List Char}
    (hs : scan cs = none) : scan (c :: cs) = none := by
  have hk : closes cs = false := by
    cases cs with
    | nil => exact closes_nil
    | cons d ds =>
      by_contra hk
      simp only [scan] at hs
      simp [hk] at hs
  simp [scan, closes_cons_ws h, hk, hs]

/-- The greedy `\s*` after the opening fence, then the group and the tail. -/
theorem greedy_scan (inp : List Char) :
    greedyLoop .space false
        (run (.groupOpen :: .starLazy .anyChar :: .groupClose :: .starGreedy .space :: lits fence)
          false) inp = scan (inp.dropWhile isWhiteSpace) := by
  have hk : ∀ i, run (.groupOpen :: .starLazy .anyChar :: .groupClose :: .starGreedy .space ::
      lits fence) false i = scan i := by
    intro i
    simp only [run]
    exact lazy_scan i
  induction inp with
  | nil => simp [greedyLoop, hk]
  | cons c cs ih =>
    simp only [greedyLoop, Atom.test, ih, hk]
    by_cases hc : isWhiteSpace c = true
    · simp only [hc, if_true, List.dropWhile_cons_of_pos]
      cases hs : scan (List.dropWhile isWhiteSpace cs) with
      | some r => simp [consIf_false]
      | none =>
        simp only
        -- the rest of the pattern from the same place fails as well
        have : ∀ l : List Char, scan (l.dropWhile isWhiteSpace) = none → scan l = none := by
          intro l
          induction l with
          | nil => simp
          | cons d ds ihd =>
            by_cases hd : isWhiteSpace d = true
            · intro h
              rw [List.dropWhile_cons_of_pos hd] at h
              exact scan_cons_ws_none hd (ihd h)
            · intro h
              rwa [List.dropWhile_cons_of_neg hd] at h
        exact scan_cons_ws_none hc (this cs hs)
    · simp [hc]

/-- What the whole pattern does at one start position. -/
theorem run_glslPattern (inp : List Char) :
    run glslPattern false inp =
      if openTag.isPrefixOf inp then
        scan ((inp.drop openTag.length).dropWhile isWhiteSpace)
      else none := by
  have h := run_lits openTag
    ([.starGreedy .space, .groupOpen, .starLazy .anyChar, .groupClose, .starGreedy .space] ++
      lits fence) inp
  simp only [glslPattern, List.append_assoc]
  rw [h, ← greedy_scan]
  rfl

theorem dropWhile_fence (post : List Char) :
    (fence ++ post).dropWhile isWhiteSpace = fence ++ post := by
  rw [fence_eq]
  simp [List.dropWhile_cons, not_ws_tick]

theorem closes_iff (inp : List Char) :
    closes inp = true ↔
      ∃ w post, inp = w ++ fence ++ post ∧ ∀ c ∈ w, isWhiteSpace c = true := by
  constructor
  · intro h
    simp only [closes, List.isPrefixOf_iff_prefix] at h
    obtain ⟨post, hpost⟩ := h
    refine ⟨inp.takeWhile isWhiteSpace, post, ?_, ?_⟩
    · rw [List.append_assoc, hpost, List.takeWhile_append_dropWhile]
    · intro c hc
      exact (List.mem_takeWhile_imp hc)
  · rintro ⟨w, post, rfl, hw⟩
    simp only [closes, List.append_assoc]
    rw [List.dropWhile_append_of_pos hw, dropWhile_fence, List.isPrefixOf_iff_prefix]
    exact List.prefix_append _ _

/-- No fence starts inside a run of white space that a fence follows: the
first fence of `w ++ fence ++ post` is the one after `w`. -/
theorem ws_fence_first {w post m p : List Char} (hw : ∀ c ∈ w, isWhiteSpace c = true)
    (h : w ++ fence ++ post = m ++ fence ++ p) : w.length ≤ m.length := by
  rw [List.append_assoc, List.append_assoc, List.append_eq_append_iff] at h
  rcases h with ⟨a, rfl, -⟩ | ⟨b, rfl, hb⟩
  · simp
  · cases b with
    | nil => simp
    | cons x xs =>
      exfalso
      have hx : isWhiteSpace x = true := hw x (by simp)
      rw [fence_eq] at hb
      simp only [List.cons_append, List.cons.injEq] at hb
      rw [← hb.1, not_ws_tick] at hx
      exact Bool.false_ne_true hx

/-- What a successful scan returns: the group ends where the white space
before the first closing fence begins, and it does not end in white space. -/
theorem scan_some {inp cap : List Char} (h : scan inp = some cap) :
    ∃ w post, inp = cap ++ w ++ fence ++ post ∧ (∀ c ∈ w, isWhiteSpace c = true) ∧
      (∀ c, cap.getLast? = some c → isWhiteSpace c = false) ∧
      (∀ m p, inp = m ++ fence ++ p → (cap ++ w).length ≤ m.length) := by
  induction inp generalizing cap with
  | nil => simp [scan] at h
  | cons c cs ih =>
    simp only [scan] at h
    by_cases hk : closes (c :: cs) = true
    · simp only [hk, if_true, Option.some.injEq] at h
      subst h
      obtain ⟨w, post, hw, hall⟩ := (closes_iff _).1 hk
      refine ⟨w, post, by simpa using hw, hall, by simp, ?_⟩
      intro m p hm
      rw [hw] at hm
      simpa using ws_fence_first hall hm
    · simp only [hk, Bool.false_eq_true, if_false, Option.map_eq_some'] at h
      obtain ⟨r, hr, rfl⟩ := h
      obtain ⟨w, post, hw, hall, hlast, hfirst⟩ := ih hr
      refine ⟨w, post, by simp [hw], hall, ?_, ?_⟩
      · intro x hx
        cases r with
        | nil =>
          simp only [List.getLast?_singleton, Option.some.injEq] at hx
          subst hx
          by_contra hc
          have hc2 : isWhiteSpace c = true := by simpa using hc
          apply hk
          rw [closes_cons_ws hc2]
          exact (closes_iff _).2 ⟨w, post, by simpa using hw, hall⟩
        | cons y ys =>
          rw [List.getLast?_cons_cons] at hx
          exact hlast x hx
      · intro m p hm
        cases m with
        | nil =>
          exfalso
          apply hk
          have hp : fence.isPrefixOf (c :: cs) = true := by
            rw [List.isPrefixOf_iff_prefix]
            exact ⟨p, by simpa using hm.symm⟩
          rw [closes_cons_not_ws (fence_prefix_not_ws hp)]
          exact hp
        | cons x xs =>
          simp only [List.cons_append, List.cons.injEq] at hm
          have := hfirst xs p hm.2
          simpa using this

theorem scan_isSome_of_closes {l : List Char} (h : closes l = true) :
    (scan l).isSome = true := by
  cases l with
  | nil => rw [closes_nil] at h; exact absurd h Bool.false_ne_true
  | cons c cs => simp [scan, h]

theorem scan_isSome_cons (c : Char) {cs : List Char} (h : (scan cs).isSome = true) :
    (scan (c :: cs)).isSome = true := by
  simp only [scan]
  split
  · rfl
  · rw [Option.isSome_map']; exact h

theorem scan_of_fence (a b : List Char) : (scan (a ++ (fence ++ b))).isSome = true := by
  induction a with
  | nil => exact scan_isSome_of_closes ((closes_iff _).2 ⟨[], b, by simp, by simp⟩)
  | cons c cs ih => exact scan_isSome_cons c ih

/-- Stripping leading white space keeps a fence that the text holds. -/
theorem dropWhile_keeps_fence (mid post : List Char) :
    ∃ a, (mid ++ (fence ++ post)).dropWhile isWhiteSpace = a ++ (fence ++ post) := by
  induction mid with
  | nil => exact ⟨[], by simpa using dropWhile_fence post⟩
  | cons c cs ih =>
    by_cases hc : isWhiteSpace c = true
    · obtain ⟨a, ha⟩ := ih
      exact ⟨a, by simpa [List.dropWhile_cons, hc] using ha⟩
    · exact ⟨c :: cs, by simp [List.dropWhile_cons, hc]⟩

/-- A run of white space before a text is not part of any fence of it. -/
theorem ws_split {w x m p : List Char} (hw : ∀ c ∈ w, isWhiteSpace c = true)
    (h : w ++ x = m ++ (fence ++ p)) : ∃ m2, m = w ++ m2 ∧ x = m2 ++ (fence ++ p) := by
  rw [List.append_eq_append_iff] at h
  rcases h with ⟨a, rfl, ha⟩ | ⟨b, rfl, hb⟩
  · exact ⟨a, rfl, ha⟩
  · cases b with
    | nil => exact ⟨[], by simp, by simpa using hb.symm⟩
    | cons y ys =>
      exfalso
      have hy : isWhiteSpace y = true := hw y (by simp)
      rw [fence_eq] at hb
      simp only [List.cons_append, List.cons.injEq] at hb
      rw [← hb.1, not_ws_tick] at hy
      exact Bool.false_ne_true hy

/-- Two opening fences do not overlap: a second one that starts after the
first starts has the whole first one before it, so that the text after the first
holds a fence. -/
theorem openTag_overlap {c r1 rest2 : List Char} (hc : c ≠ [])
    (h : c ++ (openTag ++ r1) = openTag ++ rest2) : ∃ a b, rest2 = a ++ (fence ++ b) := by
  rw [List.append_eq_append_iff] at h
  rcases h with ⟨a, ha, hb⟩ | ⟨b, -, hb⟩
  · have e : openTag = [Char.ofNat 96, Char.ofNat 96, Char.ofNat 96, 'g', 'l', 's', 'l'] := by
      decide
    rw [e] at ha hb
    rcases c with _ | ⟨x1, _ | ⟨x2, _ | ⟨x3, _ | ⟨x4, _ | ⟨x5, _ | ⟨x6, _ | ⟨x7, c⟩⟩⟩⟩⟩⟩⟩
    · exact absurd rfl hc
    all_goals simp only [List.cons_append, List.nil_append, List.cons.injEq] at ha
    · obtain ⟨-, rfl⟩ := ha
      exact absurd hb (by simp)
    · obtain ⟨-, -, rfl⟩ := ha
      exact absurd hb (by simp)
    · obtain ⟨-, -, -, rfl⟩ := ha
      exact absurd hb (by simp)
    · obtain ⟨-, -, -, -, rfl⟩ := ha
      exact absurd hb (by simp)
    · obtain ⟨-, -, -, -, -, rfl⟩ := ha
      exact absurd hb (by simp)
    · obtain ⟨-, -, -, -, -, -, rfl⟩ := ha
      exact absurd hb (by simp)
    · obtain ⟨-, -, -, -, -, -, -, h1⟩ := ha
      have h2 : a = [] := by
        cases c with
        | nil => simpa using h1
        | cons y ys => simp at h1
      subst h2
      exact ⟨[], ['g', 'l', 's', 'l'] ++ r1,
        by rw [← List.nil_append rest2, ← hb, fence_eq]; rfl⟩
  · exact ⟨b, ['g', 'l', 's', 'l'] ++ r1, by rw [hb, openTag_eq]; simp⟩

/-! ## Lemmas on `match` -/

theorem regexMatch_of_run {p : List Item} {s : List Char}
    (h : (run p false s).isSome = true) : (regexMatch p s).isSome = true := by
  cases s with
  | nil => simpa [regexMatch] using h
  | cons c cs =>
    simp only [regexMatch]
    cases hr : run p false (c :: cs) with
    | some r => rfl
    | none => rw [hr] at h; exact absurd h (by simp)

theorem regexMatch_cons {p : List Item} (c : Char) {cs : List Char}
    (h : (regexMatch p cs).isSome = true) : (regexMatch p (c :: cs)).isSome = true := by
  simp only [regexMatch]
  cases run p false (c :: cs) with
  | some r => rfl
  | none => exact h

/-- The match starts at the first position where the pattern matches. -/
theorem regexMatch_some {p : List Item} {s cap : List Char} (h : regexMatch p s = some cap) :
    ∃ pre rest, s = pre ++ rest ∧ run p false rest = some cap ∧
      ∀ p1 p2, pre = p1 ++ p2 → p2 ≠ [] → run p false (p2 ++ rest) = none := by
  induction s with
  | nil =>
    refine ⟨[], [], rfl, by simpa [regexMatch] using h, ?_⟩
    intro p1 p2 e hne
    exact absurd (List.append_eq_nil.1 e.symm).2 hne
  | cons c cs ih =>
    simp only [regexMatch] at h
    cases hr : run p false (c :: cs) with
    | some r =>
      rw [hr] at h
      refine ⟨[], c :: cs, rfl, by rw [hr]; exact h, ?_⟩
      intro p1 p2 e hne
      exact absurd (List.append_eq_nil.1 e.symm).2 hne
    | none =>
      rw [hr] at h
      obtain ⟨pre, rest, e, hrun, hfirst⟩ := ih h
      refine ⟨c :: pre, rest, by rw [e]; rfl, hrun, ?_⟩
      intro p1 p2 e2 hne
      cases p1 with
      | nil =>
        simp only [List.nil_append] at e2
        subst e2
        rw [List.cons_append, ← e]
        exact hr
      | cons x xs =>
        simp only [List.cons_append, List.cons.injEq] at e2
        exact hfirst xs p2 e2.2 hne

/-- A text that holds a block is matched. -/
theorem regexMatch_of_hasBlock {s : List Char} (h : HasBlock s) :
    (regexMatch glslPattern s).isSome = true := by
  obtain ⟨pre, mid, post, rfl⟩ := h
  induction pre with
  | nil =>
    apply regexMatch_of_run
    rw [run_glslPattern]
    have hp : openTag.isPrefixOf ([] ++ openTag ++ mid ++ fence ++ post) = true := by
      rw [List.isPrefixOf_iff_prefix]
      exact ⟨mid ++ fence ++ post, by simp⟩
    rw [if_pos hp]
    have hd : List.drop openTag.length ([] ++ openTag ++ mid ++ fence ++ post) =
        mid ++ (fence ++ post) := by
      simp
    rw [hd]
    obtain ⟨a, ha⟩ := dropWhile_keeps_fence mid post
    rw [ha]
    exact scan_of_fence a post
  | cons c cs ih =>
    exact regexMatch_cons c ih

/-! ## Lemmas on `trim` -/

theorem trimStart_of_head {s : List Char} (h : ∀ c, s.head? = some c → isWhiteSpace c = false) :
    trimStart s = s := by
  cases s with
  | nil => rfl
  | cons c cs => simp [trimStart, List.dropWhile_cons, h c rfl]

theorem trimEnd_of_last {s : List Char}
    (h : ∀ c, s.getLast? = some c → isWhiteSpace c = false) : trimEnd s = s := by
  have : trimStart s.reverse = s.reverse :=
    trimStart_of_head (by simpa using h)
  simp only [trimEnd]
  simp only [trimStart] at this
  rw [this, List.reverse_reverse]

theorem trimStart_ws {w : List Char} (hw : ∀ c ∈ w, isWhiteSpace c = true) (x : List Char) :
    trimStart (w ++ x) = trimStart x := by
  simp only [trimStart]
  exact List.dropWhile_append_of_pos hw

theorem trimEnd_ws {w : List Char} (hw : ∀ c ∈ w, isWhiteSpace c = true) (x : List Char) :
    trimEnd (x ++ w) = trimEnd x := by
  simp only [trimEnd, List.reverse_append]
  rw [List.dropWhile_append_of_pos (by simpa using hw)]

theorem trim_of_tight {s : List Char} (h : Tight s) : trim s = s := by
  simp only [trim]
  rw [trimStart_of_head h.1, trimEnd_of_last h.2]

/-- White space around a tight text is what `trim` removes. -/
theorem trim_ws_tight {w1 w2 cap : List Char} (h1 : ∀ c ∈ w1, isWhiteSpace c = true)
    (h2 : ∀ c ∈ w2, isWhiteSpace c = true) (h : Tight cap) : trim (w1 ++ cap ++ w2) = cap := by
  simp only [trim]
  rw [List.append_assoc, trimStart_ws h1]
  cases cap with
  | nil =>
    have : trimStart ([] ++ w2) = [] := by
      simp only [trimStart, List.nil_append, List.dropWhile_eq_nil_iff]
      exact h2
    rw [this]
    rfl
  | cons c cs =>
    rw [trimStart_of_head (by intro x hx; exact h.1 x (by simpa using hx)), trimEnd_ws h2,
      trimEnd_of_last h.2]

theorem tight_trim (s : List Char) : Tight (trim s) := by
  constructor
  · intro c hc
    have hpre : trim s <+: trimStart s := by
      simp only [trim, trimEnd]
      have := (List.dropWhile_suffix isWhiteSpace (l := (trimStart s).reverse))
      have h2 := List.reverse_prefix.2 this
      simpa using h2
    obtain ⟨t, ht⟩ := hpre
    have hh : (trimStart s).head? = some c := by
      rw [← ht, List.head?_append, hc]
      rfl
    have := List.head?_dropWhile_not isWhiteSpace s
    simp only [trimStart] at hh
    rw [hh] at this
    simpa using this
  · intro c hc
    simp only [trim, trimEnd, List.getLast?_reverse] at hc
    have := List.head?_dropWhile_not isWhiteSpace (trimStart s).reverse
    rw [hc] at this
    simpa using this

theorem trim_trim (s : List Char) : trim (trim s) = trim s := trim_of_tight (tight_trim s)

/-- The trimmed text is a part of the text. -/
theorem trim_part (s : List Char) : ∃ l r, s = l ++ trim s ++ r := by
  have h1 : trim s <+: trimStart s := by
    simp only [trim, trimEnd]
    have := (List.dropWhile_suffix isWhiteSpace (l := (trimStart s).reverse))
    have h2 := List.reverse_prefix.2 this
    simpa using h2
  have h2 : trimStart s <:+ s := List.dropWhile_suffix isWhiteSpace
  obtain ⟨r, hr⟩ := h1
  obtain ⟨l, hl⟩ := h2
  exact ⟨l, r, by rw [List.append_assoc, hr, hl]⟩

/-! ## The match of `extractGLSLCode` -/

theorem fence_length : fence.length = 3 := by decide

/-- What a successful match of the pattern returns. -/
theorem regexMatch_glsl_some {s cap : List Char} (h : regexMatch glslPattern s = some cap) :
    ∃ pre mid post, s = pre ++ openTag ++ mid ++ fence ++ post ∧
      (∀ pre2 rest2, s = pre2 ++ openTag ++ rest2 → pre.length ≤ pre2.length) ∧
      (∀ mid2 post2, mid ++ fence ++ post = mid2 ++ fence ++ post2 →
        mid.length ≤ mid2.length) ∧
      trim mid = cap ∧ Tight cap ∧ ∀ a b, cap ≠ a ++ fence ++ b := by
  obtain ⟨pre, rest, e, hrun, hfirst⟩ := regexMatch_some h
  rw [run_glslPattern] at hrun
  by_cases hp : openTag.isPrefixOf rest = true
  swap
  · rw [if_neg hp] at hrun
    exact absurd hrun (by simp)
  rw [if_pos hp] at hrun
  obtain ⟨r1, hr1⟩ := List.isPrefixOf_iff_prefix.1 hp
  subst hr1
  rw [List.drop_left] at hrun
  obtain ⟨w, post, hd, hall, hlast, hmin⟩ := scan_some hrun
  have hr1 : r1 = r1.takeWhile isWhiteSpace ++ (cap ++ w ++ fence ++ post) := by
    rw [← hd, List.takeWhile_append_dropWhile]
  have hw1 : ∀ c ∈ r1.takeWhile isWhiteSpace, isWhiteSpace c = true :=
    fun c hc => List.mem_takeWhile_imp hc
  have htight : Tight cap := by
    refine ⟨?_, hlast⟩
    intro c hc
    have hh : (r1.dropWhile isWhiteSpace).head? = some c := by
      rw [hd]
      simp [List.head?_append, hc]
    have := List.head?_dropWhile_not isWhiteSpace r1
    rw [hh] at this
    simpa using this
  refine ⟨pre, r1.takeWhile isWhiteSpace ++ cap ++ w, post, ?_, ?_, ?_, ?_, htight, ?_⟩
  · rw [e]
    conv_lhs => rw [hr1]
    simp
  · intro pre2 rest2 e2
    by_contra hlt
    have hlt2 : pre2.length < pre.length := by omega
    rw [e, List.append_assoc pre2, List.append_eq_append_iff] at e2
    rcases e2 with ⟨a, rfl, -⟩ | ⟨c, rfl, hc⟩
    · simp at hlt2
    · have hne : c ≠ [] := by
        rintro rfl
        simp at hlt2
      have hnone := hfirst pre2 c rfl hne
      rw [← hc, run_glslPattern] at hnone
      have hp2 : openTag.isPrefixOf (openTag ++ rest2) = true := by
        rw [List.isPrefixOf_iff_prefix]
        exact List.prefix_append _ _
      rw [if_pos hp2, List.drop_left] at hnone
      obtain ⟨a, b, rfl⟩ := openTag_overlap hne hc.symm
      obtain ⟨a2, ha2⟩ := dropWhile_keeps_fence a b
      rw [ha2] at hnone
      have := scan_of_fence a2 b
      rw [hnone] at this
      exact absurd this (by simp)
  · intro mid2 post2 e2
    have e3 : r1.takeWhile isWhiteSpace ++ (cap ++ w ++ fence ++ post) =
        mid2 ++ (fence ++ post2) := by
      simpa using e2
    obtain ⟨m2, rfl, hm2⟩ := ws_split hw1 e3
    have := hmin m2 post2 (by rw [hd, hm2]; simp)
    simp only [List.length_append] at this ⊢
    omega
  · exact trim_ws_tight hw1 hall htight
  · intro a b hab
    have := hmin a (b ++ w ++ fence ++ post) (by rw [hd, hab]; simp)
    rw [hab] at this
    simp only [List.length_append, fence_length] at this
    omega

theorem hasBlock_of_regexMatch {s cap : List Char} (h : regexMatch glslPattern s = some cap) :
    HasBlock s := by
  obtain ⟨pre, mid, post, e, -⟩ := regexMatch_glsl_some h
  exact ⟨pre, mid, post, e⟩

theorem regexMatch_none_iff (s : List Char) :
    regexMatch glslPattern s = none ↔ ¬ HasBlock s := by
  constructor
  · intro h hb
    have := regexMatch_of_hasBlock hb
    rw [h] at this
    exact absurd this (by simp)
  · intro h
    cases hm : regexMatch glslPattern s with
    | none => rfl
    | some cap => exact absurd (hasBlock_of_regexMatch hm) h

theorem extractChars_idem (s : List Char) : extractChars (extractChars s) = extractChars s := by
  cases hm : regexMatch glslPattern s with
  | some cap =>
    obtain ⟨pre, mid, post, -, -, -, -, htight, hno⟩ := regexMatch_glsl_some hm
    have e1 : extractChars s = cap := by
      simp only [extractChars, hm]
      exact trim_of_tight htight
    have hn : regexMatch glslPattern cap = none := by
      rw [regexMatch_none_iff]
      rintro ⟨p2, m2, q2, e2⟩
      apply hno (p2 ++ openTag ++ m2) q2
      rw [e2]
    rw [e1]
    simp only [extractChars, hn]
    exact trim_of_tight htight
  | none =>
    have e1 : extractChars s = trim s := by simp only [extractChars, hm]
    have hn : regexMatch glslPattern (trim s) = none := by
      rw [regexMatch_none_iff]
      rintro ⟨p2, m2, q2, e2⟩
      obtain ⟨l, r, hlr⟩ := trim_part s
      apply (regexMatch_none_iff s).1 hm
      refine ⟨l ++ p2, m2, q2 ++ r, ?_⟩
      conv_lhs => rw [hlr, e2]
      simp
    rw [e1]
    simp only [extractChars, hn]
    exact trim_trim s

/-- C1. For every text: when the text holds a fenced block tagged glsl (an
opening fence with the tag and, later, a closing fence), `extractGLSLCode`
returns the trimmed interior of the block that starts at the first opening
fence and ends at the first closing fence after it; otherwise it returns the
whole text trimmed. The red-background response of the scenario yields the bare
`void main` line. -/
theorem extractGLSLCode_spec (text : String) :
    (HasBlock text.data →
      ∃ pre mid post, text.data = pre ++ openTag ++ mid ++ fence ++ post ∧
        (∀ pre2 rest2, text.data = pre2 ++ openTag ++ rest2 → pre.length ≤ pre2.length) ∧
        (∀ mid2 post2, mid ++ fence ++ post = mid2 ++ fence ++ post2 →
          mid.length ≤ mid2.length) ∧
        extractGLSLCode text = String.mk (trim mid)) ∧
    (¬ HasBlock text.data → extractGLSLCode text = String.mk (trim text.data)) ∧
    extractGLSLCode "```glsl\nvoid main()\x7bgl_FragColor=vec4(1,0,0,1);\x7d\n```" =
      "void main()\x7bgl_FragColor=vec4(1,0,0,1);\x7d" := by
  refine ⟨?_, ?_, by decide⟩
  · intro hb
    cases hm : regexMatch glslPattern text.data with
    | none => exact absurd hb ((regexMatch_none_iff _).1 hm)
    | some cap =>
      obtain ⟨pre, mid, post, e, h1, h2, h3, htight, -⟩ := regexMatch_glsl_some hm
      refine ⟨pre, mid, post, e, h1, h2, ?_⟩
      simp only [extractGLSLCode, extractChars, hm]
      rw [h3, trim_of_tight htight]
  · intro hb
    have hm := (regexMatch_none_iff _).2 hb
    simp only [extractGLSLCode, extractChars, hm]

/-- Witness for C1: a text with prose around a block, and a text with an
opening fence that is never closed. -/
theorem extractGLSLCode_spec_witness :
    (∃ pre mid post,
      "Here: ```glsl\n x ``` done".data = pre ++ openTag ++ mid ++ fence ++ post ∧
      (∀ pre2 rest2, "Here: ```glsl\n x ``` done".data = pre2 ++ openTag ++ rest2 →
        pre.length ≤ pre2.length) ∧
      (∀ mid2 post2, mid ++ fence ++ post = mid2 ++ fence ++ post2 →
        mid.length ≤ mid2.length) ∧
      extractGLSLCode "Here: ```glsl\n x ``` done" = String.mk (trim mid)) ∧
    extractGLSLCode " ```glsl x `` " = String.mk (trim " ```glsl x `` ".data) :=
  ⟨(extractGLSLCode_spec "Here: ```glsl\n x ``` done").1
      ⟨"Here: ".data, "\n x ".data, " done".data, by decide⟩,
    (extractGLSLCode_spec " ```glsl x `` ").2.1
      ((regexMatch_none_iff _).1 (by decide))⟩

/-- C2. `extractGLSLCode` is idempotent: extracting again from its own output
returns that output, whether or not the text held a block. -/
theorem extractGLSLCode_idempotent (text : String) :
    extractGLSLCode (extractGLSLCode text) = extractGLSLCode text := by
  simp only [extractGLSLCode]
  rw [extractChars_idem]

/-! ## The frame loop -/

/-- C7. In every frame the callback `render` executes, the trace of the frame
binds the program, then writes the time and resolution uniforms, then issues
its only draw call, a triangle strip of 4 vertices from vertex 0, and only then
reschedules itself; no other call of the frame writes a uniform or draws. -/
theorem render_frame_order (s : Session) (w : World) :
    ∃ a b : List Call,
      (render s w).log =
        w.log ++ a ++ [Call.useProgram s.program] ++
          [Call.uniform1f s.timeLocation (((w.now - s.startTime : Int) : ℚ) / 1000),
            Call.uniform2f s.resolutionLocation s.canvas.width s.canvas.height] ++
          b ++ [Call.drawArrays DrawMode.triangleStrip 0 4] ++
          [Call.requestAnimationFrame w.nextHandle] ∧
      (∀ c ∈ a ++ b, c.isUniformWrite = false ∧ c.isDraw = false) ∧
      draws (render s w).log = draws w.log + 1 ∧
      (render s w).pending = w.pending ++ [(w.nextHandle, s)] := by
  refine ⟨[.viewport 0 0 s.canvas.width s.canvas.height, .clearColor 0 0 0 1, .clear],
    [.bindBuffer s.positionBuffer, .enableVertexAttribArray s.positionLocation,
      .vertexAttribPointer s.positionLocation 2 0 0], ?_, ?_, ?_, ?_⟩
  · simp [render, World.emit]
  · intro c hc
    simp only [List.cons_append, List.nil_append, List.mem_cons, List.mem_singleton,
      List.not_mem_nil, or_false] at hc
    rcases hc with rfl | rfl | rfl | rfl | rfl | rfl <;> exact ⟨rfl, rfl⟩
  · simp [render, World.emit, draws, List.filter_append, Call.isDraw, List.filter]
  · simp [render, World.emit]

/-! ## The build -/

/-- C8. On every path of `renderShader`, each shader object whose compile
status was read as false is deleted later in the same call, before the function
returns, and no shader object that failed to compile is allocated afterwards
unless it already was before the call. On the example driver the source `bad`
gives the trace shown: shader 2 fails and is deleted, and only the vertex
shader stays allocated. -/
theorem renderShader_releases_failed (host : Host) (src : String) (w : World) :
    (∃ tr, (renderShader host src w).log = w.log ++ tr ∧ failedReleased tr = true ∧
      (∀ id, Call.getShaderParameter id false ∈ tr → Call.deleteShader id ∈ tr)) ∧
    (∀ o ∈ (renderShader host src w).shaders, o.compiled = false → o ∈ w.shaders) ∧
    (renderShader exampleHost "bad" (initial (some canvas400))).log =
      [.createShader 1 .vertex, .shaderSource 1 vertexShaderSource, .compileShader 1,
        .getShaderParameter 1 true,
        .createShader 2 .fragment, .shaderSource 2 "bad", .compileShader 2,
        .getShaderParameter 2 false, .getShaderInfoLog 2,
        .consoleError "Shader compile error:" "ERROR: 0:1: syntax error", .deleteShader 2] ∧
    (renderShader exampleHost "bad" (initial (some canvas400))).shaders =
      [{ id := 1, stage := .vertex, compiled := true }] := by
  refine ⟨?_, ?_, by decide, by decide⟩
  · unfold renderShader
    cases hc : w.canvas with
    | none => exact ⟨[], by simp [hc], rfl, by simp⟩
    | some canvas =>
      cases hgl : canvas.webgl <;> cases hv : host.compiles .vertex vertexShaderSource <;>
        cases hf : host.compiles .fragment src <;>
        cases hl : host.links vertexShaderSource src <;>
        simp [createShader, World.emit, render, hc, hgl, hv, hf, hl, failedReleased]
  · unfold renderShader
    cases hc : w.canvas with
    | none =>
      simp only [hc]
      exact fun o h _ => h
    | some canvas =>
      cases hgl : canvas.webgl <;> cases hv : host.compiles .vertex vertexShaderSource <;>
        cases hf : host.compiles .fragment src <;>
        cases hl : host.links vertexShaderSource src <;>
        simp [createShader, World.emit, render, hc, hgl, hv, hf, hl]
      all_goals aesop

/-- C4, as the code has it. When the fixed vertex source compiles and the
fragment source does not, `renderShader` sets the error state to the fixed text
`Failed to compile shaders` and writes one console entry, the label
`Shader compile error:` with the diagnostic text of the driver for the fragment
shader; the stage is named in neither. -/
theorem renderShader_fragment_compile_error (host : Host) (src : String) (w : World)
    (canvas : Canvas) (hc : w.canvas = some canvas) (hgl : canvas.webgl = true)
    (hv : host.compiles .vertex vertexShaderSource = true)
    (hf : host.compiles .fragment src = false) :
    (renderShader host src w).error = "Failed to compile shaders" ∧
      consoleEntries (renderShader host src w).log =
        consoleEntries w.log ++ [("Shader compile error:", host.infoLog .fragment src)] := by
  unfold renderShader
  simp [createShader, World.emit, hc, hgl, hv, hf, consoleEntries, List.filterMap_append]

/-- Witness for C4: the source `bad` on the example driver. -/
theorem renderShader_fragment_compile_error_witness :
    (renderShader exampleHost "bad" (initial (some canvas400))).error =
        "Failed to compile shaders" ∧
      consoleEntries (renderShader exampleHost "bad" (initial (some canvas400))).log =
        consoleEntries (initial (some canvas400)).log ++
          [("Shader compile error:", exampleHost.infoLog .fragment "bad")] :=
  renderShader_fragment_compile_error exampleHost "bad" (initial (some canvas400)) canvas400
    rfl rfl (by decide) (by decide)

/-- C4 as stated fails: a build whose fragment stage alone fails and a build
whose vertex stage alone fails report the same thing, the fixed error text and
the same console entry, so the report does not name the fragment stage; and the
error text is not the diagnostic of the driver. -/
theorem compile_error_stage_not_named :
    exampleHost.compiles .vertex vertexShaderSource = true ∧
      exampleHost.compiles .fragment "bad" = false ∧
      vertexFailHost.compiles .vertex vertexShaderSource = false ∧
      vertexFailHost.compiles .fragment "bad" = true ∧
      report (renderShader exampleHost "bad" (initial (some canvas400))) =
        report (renderShader vertexFailHost "bad" (initial (some canvas400))) ∧
      report (renderShader exampleHost "bad" (initial (some canvas400))) =
        ("Failed to compile shaders",
          [("Shader compile error:", "ERROR: 0:1: syntax error")]) := by
  decide

/-! ## Failed builds and the loop -/

theorem draws_append (a b : List Call) : draws (a ++ b) = draws a + draws b := by
  simp [draws, List.filter_append]

/-- A failed build draws nothing and leaves the scheduled callbacks alone. -/
theorem renderShader_failed (host : Host) (src : String) (w : World)
    (hfail : host.compiles .fragment src = false ∨ host.links vertexShaderSource src = false) :
    draws (renderShader host src w).log = draws w.log ∧
      (renderShader host src w).pending = w.pending := by
  unfold renderShader
  cases hc : w.canvas with
  | none => simp [hc]
  | some canvas =>
    cases hgl : canvas.webgl <;> cases hv : host.compiles .vertex vertexShaderSource <;>
      cases hf : host.compiles .fragment src <;> cases hl : host.links vertexShaderSource src <;>
      simp [createShader, World.emit, hc, hgl, hv, hf, hl, draws_append] <;>
      first
        | rfl
        | (rw [hf, hl] at hfail; simp at hfail)

/-- With nothing scheduled, frame callbacks and unmount draw nothing and
schedule nothing. -/
theorem passive_stopped (host : Host) (evs : List Event) :
    ∀ w : World, w.pending = [] → (∀ e ∈ evs, e.isPassive = true) →
      draws (runEvents host w evs).log = draws w.log ∧ (runEvents host w evs).pending = [] := by
  induction evs with
  | nil => intro w hw _; exact ⟨rfl, hw⟩
  | cons e es ih =>
    intro w hw hp
    have he : e.isPassive = true := hp e (by simp)
    have hes : ∀ e2 ∈ es, e2.isPassive = true := fun e2 h2 => hp e2 (by simp [h2])
    have hstep : draws (step host w e).log = draws w.log ∧ (step host w e).pending = [] := by
      cases e with
      | setPrompt p => simp [Event.isPassive] at he
      | click => simp [Event.isPassive] at he
      | commit => simp [Event.isPassive] at he
      | settle r => simp [Event.isPassive] at he
      | frame handle t => simp [step, frame, hw]
      | unmount =>
        simp only [step, unmount, cleanup]
        cases w.animationRef with
        | none => exact ⟨rfl, hw⟩
        | some handle =>
          by_cases h0 : handle = 0
          · simp [h0, hw]
          · simp [h0, cancelAnimationFrame, World.emit, hw, draws_append]
            rfl
    obtain ⟨h1, h2⟩ := ih (step host w e) hstep.2 hes
    simp only [runEvents, List.foldl_cons] at h1 h2 ⊢
    exact ⟨h1.trans hstep.1, h2⟩

theorem loopState_stopped (w : World) : loopState w = .stopped ↔ w.pending = [] := by
  simp only [loopState]
  cases w.pending with
  | nil => simp
  | cons p ps => simp

/-- C5, as the code has it. A `renderShader` call whose fragment source fails
to compile, or whose program fails to link, issues no draw call itself; and
when no frame callback is scheduled before the call (the loop is Stopped), none
is scheduled after it and no later frame callback or unmount issues a draw
call. -/
theorem renderShader_failed_build_stopped (host : Host) (src : String) (w : World)
    (hfail : host.compiles .fragment src = false ∨ host.links vertexShaderSource src = false) :
    draws (renderShader host src w).log = draws w.log ∧
      (loopState w = .stopped →
        loopState (renderShader host src w) = .stopped ∧
        ∀ evs : List Event, (∀ e ∈ evs, e.isPassive = true) →
          draws (runEvents host (renderShader host src w) evs).log = draws w.log ∧
            loopState (runEvents host (renderShader host src w) evs) = .stopped) := by
  obtain ⟨h1, h2⟩ := renderShader_failed host src w hfail
  refine ⟨h1, fun hs => ?_⟩
  have hw : w.pending = [] := (loopState_stopped w).1 hs
  refine ⟨(loopState_stopped _).2 (by rw [h2, hw]), fun evs hp => ?_⟩
  obtain ⟨h3, h4⟩ := passive_stopped host evs (renderShader host src w) (by rw [h2, hw]) hp
  exact ⟨h3.trans h1, (loopState_stopped _).2 h4⟩

/-- Witness for C5: the source `bad` on a fresh component, followed by two
frame ticks and the unmount. -/
theorem renderShader_failed_build_stopped_witness :
    draws (renderShader exampleHost "bad" (initial (some canvas400))).log =
        draws (initial (some canvas400)).log ∧
      loopState (renderShader exampleHost "bad" (initial (some canvas400))) = .stopped ∧
      draws (runEvents exampleHost (renderShader exampleHost "bad" (initial (some canvas400)))
        [.frame 1 16, .frame 2 33, .unmount]).log = draws (initial (some canvas400)).log :=
  have h := renderShader_failed_build_stopped exampleHost "bad" (initial (some canvas400))
    (Or.inl (by decide))
  ⟨h.1, (h.2 rfl).1, ((h.2 rfl).2 [.frame 1 16, .frame 2 33, .unmount] (by decide)).1⟩

/-- C5 as stated fails: with a loop running from an earlier build, a build
whose fragment source does not compile leaves that loop scheduled, and its next
frame issues a draw call. -/
theorem failed_build_leaves_loop_running :
    exampleHost.compiles .fragment "bad" = false ∧
      (renderShader exampleHost "bad" oneBuild).error = "Failed to compile shaders" ∧
      (renderShader exampleHost "bad" oneBuild).pending.map Prod.fst = [1] ∧
      loopState (renderShader exampleHost "bad" oneBuild) = .running ∧
      draws (frame 1 16 (renderShader exampleHost "bad" oneBuild)).log =
        draws (renderShader exampleHost "bad" oneBuild).log + 1 := by
  decide

/-- C3 fails on the code: `renderShader` never cancels the callback an
earlier call scheduled. After two builds that compile and link, two frame
callbacks are scheduled and nothing was cancelled; the unmount cancels only the
handle stored last, and the callback of the first build still runs, binding the
first program and drawing. -/
theorem two_builds_two_loops :
    activeLoops oneBuild = 1 ∧
      activeLoops twoBuilds = 2 ∧
      oneBuild.pending.map Prod.fst = [1] ∧
      twoBuilds.pending.map Prod.fst = [1, 2] ∧
      twoBuilds.pending.map (fun p => p.2.program) = [3, 7] ∧
      cancelled twoBuilds.log = [] ∧
      twoBuilds.animationRef = some 2 ∧
      (cleanup twoBuilds).pending.map Prod.fst = [1] ∧
      loopState (cleanup twoBuilds) = .running ∧
      draws (frame 1 16 (cleanup twoBuilds)).log = draws (cleanup twoBuilds).log + 1 ∧
      boundPrograms (frame 1 16 (cleanup twoBuilds)).log =
        boundPrograms (cleanup twoBuilds).log ++ [3] := by
  decide

/-! ## The request -/

/-- C6. When the service answers with an object whose `error` field is a
non-empty string, the settling of `submit` enters no build and makes no call at
all, the error state becomes that string, and the canvas, the scheduled frame
callbacks, the stored frame handle and the objects of the context are as
before; over the whole of `submit` the only call is the request itself, for
the current prompt and for any prompt the handler closes over. -/
theorem submit_error_reply (host : Host) (w : World) (msg : String) (shader : Option String)
    (hmsg : msg ≠ "") :
    ((submitSettle host (.json (some msg) shader) w).error = msg ∧
      (submitSettle host (.json (some msg) shader) w).renderCalls = w.renderCalls ∧
      (submitSettle host (.json (some msg) shader) w).log = w.log ∧
      (submitSettle host (.json (some msg) shader) w).canvas = w.canvas ∧
      (submitSettle host (.json (some msg) shader) w).pending = w.pending ∧
      (submitSettle host (.json (some msg) shader) w).animationRef = w.animationRef ∧
      (submitSettle host (.json (some msg) shader) w).nextHandle = w.nextHandle ∧
      (submitSettle host (.json (some msg) shader) w).shaders = w.shaders ∧
      (submitSettle host (.json (some msg) shader) w).nextId = w.nextId) ∧
    ((trim w.prompt.data).isEmpty = false →
      (submitSettle host (.json (some msg) shader) (submitStart w)).error = msg ∧
      (submitSettle host (.json (some msg) shader) (submitStart w)).renderCalls =
        w.renderCalls ∧
      (submitSettle host (.json (some msg) shader) (submitStart w)).log =
        w.log ++ [Call.fetch w.prompt] ∧
      (submitSettle host (.json (some msg) shader) (submitStart w)).canvas = w.canvas ∧
      (submitSettle host (.json (some msg) shader) (submitStart w)).pending = w.pending ∧
      (submitSettle host (.json (some msg) shader) (submitStart w)).animationRef =
        w.animationRef ∧
      (submitSettle host (.json (some msg) shader) (submitStart w)).shaders = w.shaders) ∧
    (∀ prompt : String, (trim prompt.data).isEmpty = false →
      (submitSettle host (.json (some msg) shader) (submit prompt w)).error = msg ∧
      (submitSettle host (.json (some msg) shader) (submit prompt w)).renderCalls =
        w.renderCalls ∧
      (submitSettle host (.json (some msg) shader) (submit prompt w)).log =
        w.log ++ [Call.fetch prompt] ∧
      (submitSettle host (.json (some msg) shader) (submit prompt w)).canvas = w.canvas ∧
      (submitSettle host (.json (some msg) shader) (submit prompt w)).pending = w.pending ∧
      (submitSettle host (.json (some msg) shader) (submit prompt w)).animationRef =
        w.animationRef ∧
      (submitSettle host (.json (some msg) shader) (submit prompt w)).shaders = w.shaders) := by
  have h : (msg != "") = true := by simpa using hmsg
  refine ⟨by simp [submitSettle, h], fun hp => ?_, fun prompt hp => ?_⟩
  · simp [submitSettle, submitStart, submit, hp, h, World.emit]
  · simp [submitSettle, submit, hp, h, World.emit]

/-- Witness for C6: the reply of the scenario, on a component that already
runs a loop. -/
theorem submit_error_reply_witness :
    (submitSettle exampleHost (.json (some "rate limited") none) oneBuild).error =
        "rate limited" ∧
      (submitSettle exampleHost (.json (some "rate limited") none) oneBuild).log =
        oneBuild.log ∧
      (submitSettle exampleHost (.json (some "rate limited") none) oneBuild).pending =
        oneBuild.pending :=
  have h := (submit_error_reply exampleHost oneBuild "rate limited" none (by decide)).1
  ⟨h.1, h.2.2.1, h.2.2.2.2.1⟩

/-! ## The quad -/

/-- C9. A build that compiles and links uploads one buffer, the eight numbers
of line 101; read two at a time they are the four corners of clip space, the
strip of 4 vertices from vertex 0 draws the two triangles `(v0, v1, v2)` and
`(v1, v2, v3)`, and every point of the square from -1 to 1 in both coordinates
lies in one of the two. -/
theorem quad_covers_viewport {K : Type} [LinearOrderedField K] (host : Host) (src : String)
    (w : World) (canvas : Canvas) (hc : w.canvas = some canvas) (hgl : canvas.webgl = true)
    (hv : host.compiles .vertex vertexShaderSource = true)
    (hf : host.compiles .fragment src = true)
    (hl : host.links vertexShaderSource src = true) :
    uploads (renderShader host src w).log = uploads w.log ++ [quadData] ∧
      vertices quadData = [(-1, -1), (1, -1), (-1, 1), (1, 1)] ∧
      drawnTriangles (vertices quadData) 0 4 =
        [((-1, -1), (1, -1), (-1, 1)), ((1, -1), (-1, 1), (1, 1))] ∧
      ∀ x y : K, -1 ≤ x → x ≤ 1 → -1 ≤ y → y ≤ 1 →
        ∃ t ∈ drawnTriangles (vertices quadData) 0 4, InTriangle t x y := by
  refine ⟨?_, by decide, by decide, ?_⟩
  · unfold renderShader
    simp [createShader, World.emit, render, hc, hgl, hv, hf, hl, uploads,
      List.filterMap_append]
  · intro x y hx1 hx2 hy1 hy2
    have e : drawnTriangles (vertices quadData) 0 4 =
        [((-1, -1), (1, -1), (-1, 1)), ((1, -1), (-1, 1), (1, 1))] := by decide
    rw [e]
    rcases le_total (x + y) 0 with h | h
    · refine ⟨((-1, -1), (1, -1), (-1, 1)), by simp, ?_⟩
      refine ⟨-(x + y) / 2, (x + 1) / 2, (y + 1) / 2, ?_, ?_, ?_, ?_, ?_, ?_⟩
      · apply div_nonneg _ (by norm_num)
        linarith
      · apply div_nonneg _ (by norm_num)
        linarith
      · apply div_nonneg _ (by norm_num)
        linarith
      · ring
      · push_cast; ring
      · push_cast; ring
    · refine ⟨((1, -1), (-1, 1), (1, 1)), by simp, ?_⟩
      refine ⟨(1 - y) / 2, (1 - x) / 2, (x + y) / 2, ?_, ?_, ?_, ?_, ?_, ?_⟩
      · apply div_nonneg _ (by norm_num)
        linarith
      · apply div_nonneg _ (by norm_num)
        linarith
      · apply div_nonneg _ (by norm_num)
        linarith
      · ring
      · push_cast; ring
      · push_cast; ring

/-- Witness for C9: the first build of the example and the point `(1/2, -1/3)`. -/
theorem quad_covers_viewport_witness :
    uploads oneBuild.log = [quadData] ∧
      ∃ t ∈ drawnTriangles (vertices quadData) 0 4, InTriangle t (1 / 2 : ℚ) (-1 / 3 : ℚ) :=
  have h := quad_covers_viewport (K := ℚ) exampleHost "void main()" (initial (some canvas400))
    canvas400 rfl rfl (by decide) (by decide) (by decide)
  ⟨h.1, h.2.2.2 (1 / 2) (-1 / 3) (by norm_num) (by norm_num) (by norm_num) (by norm_num)⟩

/-! ## The busy flag -/

theorem fetches_append (a b : List Call) : fetches (a ++ b) = fetches a + fetches b := by
  simp [fetches, List.filter_append]

theorem render_request (s : Session) (w : World) :
    (render s w).inFlight = w.inFlight ∧ (render s w).compiling = w.compiling ∧
      fetches (render s w).log = fetches w.log ∧ (render s w).renderCalls = w.renderCalls ∧
      (render s w).view = w.view := by
  simp [render, World.emit, fetches_append]
  rfl

theorem renderShader_request (host : Host) (src : String) (w : World) :
    (renderShader host src w).inFlight = w.inFlight ∧
      (renderShader host src w).compiling = w.compiling ∧
      fetches (renderShader host src w).log = fetches w.log := by
  unfold renderShader
  cases hc : w.canvas with
  | none => simp [hc]
  | some canvas =>
    cases hgl : canvas.webgl <;> cases hv : host.compiles .vertex vertexShaderSource <;>
      cases hf : host.compiles .fragment src <;> cases hl : host.links vertexShaderSource src <;>
      simp [createShader, World.emit, render, hc, hgl, hv, hf, hl, fetches_append] <;> rfl

theorem frame_request (handle : Nat) (t : Int) (w : World) :
    (frame handle t w).inFlight = w.inFlight ∧ (frame handle t w).compiling = w.compiling ∧
      fetches (frame handle t w).log = fetches w.log ∧
      (frame handle t w).renderCalls = w.renderCalls ∧ (frame handle t w).view = w.view := by
  simp only [frame]
  split
  · exact ⟨rfl, rfl, rfl, rfl, rfl⟩
  · exact render_request _ _

theorem unmount_request (w : World) :
    (unmount w).inFlight = w.inFlight ∧ (unmount w).compiling = w.compiling ∧
      fetches (unmount w).log = fetches w.log ∧ (unmount w).renderCalls = w.renderCalls ∧
      (unmount w).view = w.view := by
  simp only [unmount, cleanup]
  split
  · split
    · simp [cancelAnimationFrame, World.emit, fetches_append]
      rfl
    · exact ⟨rfl, rfl, rfl, rfl, rfl⟩
  · exact ⟨rfl, rfl, rfl, rfl, rfl⟩

theorem submitSettle_request (host : Host) (r : Reply) (w : World) :
    (submitSettle host r w).compiling = false ∧
      (submitSettle host r w).inFlight = w.inFlight - 1 := by
  cases r with
  | throws m => simp [submitSettle, submitCatch]
  | json e sh =>
    cases e with
    | none =>
      cases sh with
      | none => simp [submitSettle, submitCatch]
      | some code => simp [submitSettle, (renderShader_request _ _ _).1]
    | some msg =>
      by_cases hm : (msg != "") = true
      · simp [submitSettle, hm]
      · cases sh with
        | none => simp [submitSettle, submitCatch, hm]
        | some code => simp [submitSettle, hm, (renderShader_request _ _ _).1]

theorem guarded_click_commit (w : World) (h : Guarded w) : Guarded (commit (click w)) := by
  obtain ⟨hb, hv⟩ := h
  refine ⟨?_, fun hc => hc⟩
  simp only [click]
  cases hvc : w.view.compiling with
  | true => exact hb
  | false =>
    have hc : w.compiling = false := by
      cases hcc : w.compiling with
      | false => rfl
      | true => rw [hv hcc] at hvc; exact absurd hvc (by simp)
    have h0 : w.inFlight = 0 := by
      rcases hb with ⟨h1, -⟩ | ⟨-, h2⟩
      · exact h1
      · rw [hc] at h2; exact absurd h2 (by simp)
    simp only [Bool.false_eq_true, if_false, submit]
    split
    · exact Or.inl ⟨h0, hc⟩
    · exact Or.inr ⟨by simp [commit, World.emit, h0], by simp [commit, World.emit]⟩

theorem guarded_step (host : Host) (w : World) (e : Event) (hne : e.isClick = false)
    (h : Guarded w) : Guarded (step host w e) := by
  obtain ⟨hb, hv⟩ := h
  cases e with
  | setPrompt p => exact ⟨hb, hv⟩
  | click => simp [Event.isClick] at hne
  | commit => exact ⟨hb, fun hc => hc⟩
  | settle r =>
    simp only [step]
    rcases hb with ⟨h1, h2⟩ | ⟨h1, h2⟩
    · simp only [h1, if_true]
      exact ⟨Or.inl ⟨h1, h2⟩, hv⟩
    · have hs := submitSettle_request host r w
      simp only [h1, one_ne_zero, if_false]
      refine ⟨Or.inl ⟨by rw [hs.2, h1], hs.1⟩, fun hc => ?_⟩
      rw [hs.1] at hc
      exact absurd hc (by simp)
  | frame handle t =>
    have hf := frame_request handle t w
    simp only [step, Guarded, Busy]
    rw [hf.1, hf.2.1, hf.2.2.2.2]
    exact ⟨hb, hv⟩
  | unmount =>
    have hf := unmount_request w
    simp only [step, Guarded, Busy]
    rw [hf.1, hf.2.1, hf.2.2.2.2]
    exact ⟨hb, hv⟩

theorem guarded_run (host : Host) (evs : List Event) :
    ∀ w : World, Guarded w → Guarded (runEvents host w (pace evs)) := by
  induction evs with
  | nil => intro w h; exact h
  | cons e es ih =>
    intro w h
    cases e with
    | click =>
      simp only [pace, runEvents, List.foldl_cons]
      exact ih _ (guarded_click_commit w h)
    | setPrompt p =>
      simp only [pace, runEvents, List.foldl_cons]
      exact ih _ (guarded_step host w _ rfl h)
    | commit =>
      simp only [pace, runEvents, List.foldl_cons]
      exact ih _ (guarded_step host w _ rfl h)
    | settle r =>
      simp only [pace, runEvents, List.foldl_cons]
      exact ih _ (guarded_step host w _ rfl h)
    | frame handle t =>
      simp only [pace, runEvents, List.foldl_cons]
      exact ih _ (guarded_step host w _ rfl h)
    | unmount =>
      simp only [pace, runEvents, List.foldl_cons]
      exact ih _ (guarded_step host w _ rfl h)

/-- Once the render with `compiling` set is committed, and until the request
settles, the flag stays set, the button stays disabled, no request is sent and
no build is entered. -/
theorem in_flight_run (host : Host) (evs : List Event) :
    ∀ w : World, w.compiling = true → w.view.compiling = true →
      (∀ e ∈ evs, e.isSettle = false) →
      (runEvents host w evs).compiling = true ∧
        (runEvents host w evs).view.compiling = true ∧
        fetches (runEvents host w evs).log = fetches w.log ∧
        (runEvents host w evs).renderCalls = w.renderCalls := by
  induction evs with
  | nil => intro w h hv _; exact ⟨h, hv, rfl, rfl⟩
  | cons e es ih =>
    intro w h hv hp
    have he : e.isSettle = false := hp e (by simp)
    have hes : ∀ e2 ∈ es, e2.isSettle = false := fun e2 h2 => hp e2 (by simp [h2])
    have hstep : (step host w e).compiling = true ∧ (step host w e).view.compiling = true ∧
        fetches (step host w e).log = fetches w.log ∧
        (step host w e).renderCalls = w.renderCalls := by
      cases e with
      | setPrompt p => exact ⟨h, hv, rfl, rfl⟩
      | click => simp [step, click, h, hv]
      | commit => exact ⟨h, h, rfl, rfl⟩
      | settle r => simp [Event.isSettle] at he
      | frame handle t =>
        have hf := frame_request handle t w
        simp only [step]
        rw [hf.2.1, hf.2.2.2.2]
        exact ⟨h, hv, hf.2.2.1, hf.2.2.2.1⟩
      | unmount =>
        have hf := unmount_request w
        simp only [step]
        rw [hf.2.1, hf.2.2.2.2]
        exact ⟨h, hv, hf.2.2.1, hf.2.2.2.1⟩
    obtain ⟨h1, h2, h3, h4⟩ := ih (step host w e) hstep.1 hstep.2.1 hes
    simp only [runEvents, List.foldl_cons] at h1 h2 h3 h4 ⊢
    exact ⟨h1, h2, h3.trans hstep.2.2.1, h4.trans hstep.2.2.2⟩

/-- C10, as the code has it. A `submit` with a non-blank prompt calls
`setCompiling(true)` and then sends the request, and the settling of the
request ends with `setCompiling(false)` whatever the outcome. The button is
disabled by the render React commits, not by the call of the setter: a commit
gives the button the value of `compiling`; while the committed button is
disabled a click does nothing, and from such a commit until the request settles
the flag stays set, the button stays disabled, no request is sent and no build
is entered. When React commits after each click before the next event, at most
one request is in flight from the mounted component on, and `compiling` holds
exactly while one is. -/
theorem compiling_guards_after_commit (host : Host) :
    (∀ (w : World) (prompt : String), (trim prompt.data).isEmpty = false →
      (submit prompt w).compiling = true ∧
        (submit prompt w).log = w.log ++ [Call.fetch prompt] ∧
        (submit prompt w).inFlight = w.inFlight + 1) ∧
    (∀ (r : Reply) (w : World), (submitSettle host r w).compiling = false) ∧
    (∀ w : World, (commit w).view.compiling = w.compiling) ∧
    (∀ w : World, w.view.compiling = true → click w = w) ∧
    (∀ (w : World) (evs : List Event), w.compiling = true → w.view.compiling = true →
      (∀ e ∈ evs, e.isSettle = false) →
      (runEvents host w evs).compiling = true ∧
        (runEvents host w evs).view.compiling = true ∧
        fetches (runEvents host w evs).log = fetches w.log ∧
        (runEvents host w evs).renderCalls = w.renderCalls) ∧
    (∀ (canvas : Option Canvas) (evs : List Event),
      (runEvents host (initial canvas) (pace evs)).inFlight ≤ 1 ∧
        ((runEvents host (initial canvas) (pace evs)).compiling = true ↔
          (runEvents host (initial canvas) (pace evs)).inFlight = 1)) := by
  refine ⟨?_, ?_, ?_, ?_, ?_, ?_⟩
  · intro w prompt hp
    simp [submit, hp, World.emit]
  · intro r w
    exact (submitSettle_request host r w).1
  · intro w
    rfl
  · intro w hc
    simp [click, hc]
  · intro w evs hc hv hp
    exact in_flight_run host evs w hc hv hp
  · intro canvas evs
    have hg := guarded_run host evs (initial canvas) ⟨Or.inl ⟨rfl, rfl⟩, fun h => h⟩
    rcases hg.1 with ⟨h1, h2⟩ | ⟨h1, h2⟩
    · rw [h1, h2]; simp
    · rw [h1, h2]; simp

/-- Witness for C10: the prompt is typed and rendered, the button is clicked
and the render committed; then it is clicked again, a frame passes, it is
clicked once more, and the request fails. -/
theorem compiling_guards_after_commit_witness :
    (submit "a red background" typed).compiling = true ∧
      click (commit (click typed)) = commit (click typed) ∧
      fetches (runEvents exampleHost (commit (click typed))
        [.click, .frame 1 16, .click]).log = 1 ∧
      (submitSettle exampleHost (.throws "Failed to fetch")
        (commit (click typed))).compiling = false :=
  have h := compiling_guards_after_commit exampleHost
  ⟨(h.1 typed "a red background" (by decide)).1,
    h.2.2.2.1 (commit (click typed)) (by decide),
    ((h.2.2.2.2.1 (commit (click typed)) [.click, .frame 1 16, .click] (by decide)
      (by decide) (by decide)).2.2.1).trans (by decide),
    h.2.1 _ _⟩

/-- C10 as stated fails: two clicks with no commit between them. After the
first click `setCompiling(true)` was called and the request is in flight, but
the committed button is not yet disabled; the second click runs `submit` again,
and two requests are in flight. -/
theorem double_click_two_requests :
    (runEvents exampleHost typed [.click]).compiling = true ∧
      (runEvents exampleHost typed [.click]).inFlight = 1 ∧
      (runEvents exampleHost typed [.click]).view.compiling = false ∧
      fetches (runEvents exampleHost typed [.click, .click]).log = 2 ∧
      (runEvents exampleHost typed [.click, .click]).inFlight = 2 ∧
      (runEvents exampleHost typed [.click, .click]).log =
        [.fetch "a red background", .fetch "a red background"] := by
  decide

end TextToShader
